import Mathlib

/-!
Verification development for the wireguard-exporter-go repository.

The Go sources are shallowly embedded as pure Lean functions:

* Go strings are modelled as Lean `String` where only equality matters, and as
  `List Char` (`GoStr`) where character-level scanning is performed (Go `range`
  over a string iterates runes, which correspond to `Char`).
* Go `map[string]string` values are modelled as association lists built
  exclusively through `upsertA`, which reproduces Go map assignment
  (replace-if-present, insert-otherwise); iteration order of Go maps is
  irrelevant to every fact proved here because only lookups and sizes are used.
* Fallible Go functions returning `(T, error)` are modelled as `Except String T`.
* Subprocess invocation is abstracted: the parsing functions receive the text
  that the external command produced as an explicit argument.
-/

abbrev GoStr := List Char

/-- Association-list lookup: first binding wins (models Go map indexing,
where at most one binding per key ever exists). -/
def lookupA {β : Type} : List (String × β) → String → Option β
  | [], _ => none
  | (k, v) :: r, a => if k = a then some v else lookupA r a

/-- Go map assignment `m[k] = v`: replace the binding if the key is present,
append it otherwise. -/
def upsertA {α β : Type} [DecidableEq α] : List (α × β) → α → β → List (α × β)
  | [], k, v => [(k, v)]
  | (k', v') :: r, k, v => if k' = k then (k, v) :: r else (k', v') :: upsertA r k v

/-- Merging one label map into another, as Go's `for k, v := range custom
\x7b labels[k] = v \x7d` loop does. -/
def mergeLabels (base custom : List (String × String)) : List (String × String) :=
  custom.foldl (fun m p => upsertA m p.1 p.2) base

abbrev Labels := List (String × String)

/-- ASCII fragment of Go `unicode.IsSpace`, used by `strings.Fields` and
`strings.TrimSpace`. All inputs considered in this development are ASCII. -/
def isGoSpace (c : Char) : Bool :=
  c == ' ' || c == '\t' || c == '\n' || (c == Char.ofNat 11) || (c == Char.ofNat 12) || c == '\r'

/-- The character class of the regexp escape `\s` (RE2): tab, newline,
form feed, carriage return, space — and, unlike Go `unicode.IsSpace`, no
vertical tab. -/
def isSpaceRE2 (c : Char) : Bool :=
  c == ' ' || c == '\t' || c == '\n' || (c == Char.ofNat 12) || c == '\r'

/-- Go `strings.TrimSpace` (ASCII inputs). -/
def goTrimSpace (s : GoStr) : GoStr :=
  ((s.dropWhile isGoSpace).reverse.dropWhile isGoSpace).reverse

/-- Go `strings.Split(s, sep)` for a one-character separator: empty entries
are kept, and the result always has at least one element. -/
def splitOnChar (sep : Char) : GoStr → List GoStr
  | [] => [[]]
  | c :: cs =>
    let r := splitOnChar sep cs
    if c == sep then [] :: r
    else
      match r with
      | h :: t => (c :: h) :: t
      | [] => [[c]]

/-- Go `strings.Fields`: split on runs of whitespace, dropping empty fields. -/
def splitFieldsAux : GoStr → GoStr → List GoStr
  | [], acc => if acc.isEmpty then [] else [acc.reverse]
  | c :: cs, acc =>
    if isGoSpace c then
      if acc.isEmpty then splitFieldsAux cs [] else acc.reverse :: splitFieldsAux cs []
    else splitFieldsAux cs (c :: acc)

def splitFields (s : GoStr) : List GoStr := splitFieldsAux s []

/-- Whether `p` is an initial segment of `s` (Go `strings.HasPrefix`). -/
def startsWithL : GoStr → GoStr → Bool
  | [], _ => true
  | _ :: _, [] => false
  | p :: ps, c :: cs => p == c && startsWithL ps cs

/-- Numeric value of a digit string (callers guarantee all characters are
digits). -/
def digitsVal (s : GoStr) : Nat :=
  s.foldl (fun a c => a * 10 + (c.toNat - '0'.toNat)) 0

/-- Digit-string to natural number; `none` when empty or containing a
non-digit. Word-size overflow is not modelled: every numeric literal
appearing in the claims is far below 2^63. -/
def digitsToNat (s : GoStr) : Option Nat :=
  if !s.isEmpty && s.all (fun c => c.isDigit) then some (digitsVal s) else none

/-- Go `strconv.Atoi` (optional sign, decimal digits). -/
def goAtoi (s : GoStr) : Option Int :=
  match s with
  | '+' :: r => (digitsToNat r).map (fun n => (n : Int))
  | '-' :: r => (digitsToNat r).map (fun n => -(n : Int))
  | r => (digitsToNat r).map (fun n => (n : Int))

/-- Go `strconv.ParseInt(s, 10, 64)` (same accepted syntax as `Atoi`). -/
def goParseInt (s : GoStr) : Option Int := goAtoi s

/-- Go `strconv.ParseUint(s, 10, 64)`: decimal digits, no sign. -/
def goParseUint (s : GoStr) : Option Nat := digitsToNat s

/-- ASCII lowering, the fragment of Go `strings.ToLower` exercised here. -/
def toLowerGo (s : GoStr) : GoStr :=
  s.map (fun c => if 'A' ≤ c ∧ c ≤ 'Z' then Char.ofNat (c.toNat + 32) else c)

/-- ASCII raising, the fragment of Go `strings.ToUpper` exercised here. -/
def toUpperGo (s : GoStr) : GoStr :=
  s.map (fun c => if 'a' ≤ c ∧ c ≤ 'z' then Char.ofNat (c.toNat - 32) else c)

/-- types.go: a WireGuard peer. `Endpoint` uses the Go sentinel `""` for
"absent"; `LatestHandshake` models Go's `time.Time` where `none` is the zero
value (never handshaked) and `some t` is `time.Unix(t, 0)`. -/
structure Peer where
  PublicKey : String
  DisplayName : String
  Endpoint : String
  AllowedIPs : List String
  LatestHandshake : Option Int
  BytesSent : Nat
  BytesReceived : Nat
deriving Repr, DecidableEq

/-- types.go: a WireGuard interface. -/
structure Interface where
  Name : String
  PublicKey : String
  ListeningPort : Int
  Peers : List Peer
deriving Repr, DecidableEq

/-- interfaces.go `len(name)`: Go string length is a byte count; characters
are modelled as runes, so the byte count is the sum of UTF-8 sizes. -/
def goByteLen (s : GoStr) : Nat := (s.map (fun c => c.utf8Size)).sum

/-- interfaces.go `isValidInterfaceName`: length check on the byte count,
then a per-rune check for ASCII letters, digits, `-`, `_`. -/
def isValidInterfaceName (s : GoStr) : Bool :=
  if goByteLen s == 0 || goByteLen s > 15 then false
  else s.all (fun r =>
    (decide ('a' ≤ r) && decide (r ≤ 'z')) ||
    (decide ('A' ≤ r) && decide (r ≤ 'Z')) ||
    (decide ('0' ≤ r) && decide (r ≤ '9')) ||
    r == '-' || r == '_')

/-- parser.go and unnamed/part_000: the allowed-IPs field of a peer line is
split on `,` and each entry is trimmed (`strings.Split` + `strings.TrimSpace`
in the per-entry loop). -/
def parseAllowedIPs (fld : GoStr) : List String :=
  (splitOnChar ',' fld).map (fun e => String.mk (goTrimSpace e))

/-- unnamed/part_000 peer-line handling (restricted header variant): indices
0 = public key, 1 = endpoint, 2 = allowed IPs, 3 = handshake, 4 = rx bytes,
5 = tx bytes, every access guarded by a length check. -/
def parsePeerOld (parts : List GoStr) : Peer :=
  let peer0 : Peer :=
    { PublicKey := String.mk (parts.headD []), DisplayName := ("")
      Endpoint := (""), AllowedIPs := [], LatestHandshake := none
      BytesSent := 0, BytesReceived := 0 }
  let peer1 :=
    if parts.length ≥ 2 ∧ parts.getD 1 [] ≠ ('(' :: "none)".toList) then
      { peer0 with Endpoint := String.mk (parts.getD 1 []) }
    else peer0
  let peer2 :=
    if parts.length ≥ 3 then
      { peer1 with AllowedIPs := parseAllowedIPs (parts.getD 2 []) }
    else peer1
  let peer3 :=
    if parts.length ≥ 4 ∧ parts.getD 3 [] ≠ ['0'] then
      match goParseInt (parts.getD 3 []) with
      | some t => if t > 0 then { peer2 with LatestHandshake := some t } else peer2
      | none => peer2
    else peer2
  let peer4 :=
    if parts.length ≥ 5 then
      match goParseUint (parts.getD 4 []) with
      | some b => { peer3 with BytesReceived := b }
      | none => peer3
    else peer3
  if parts.length ≥ 6 then
    match goParseUint (parts.getD 5 []) with
    | some b => { peer4 with BytesSent := b }
    | none => peer4
  else peer4

/-- unnamed/part_000 `ParseInterfaceData` with the subprocess output passed
in as `dump`: restricted header (field 0 = public key, field 1 = port),
header accepted from 2 fields, peer lines kept from 1 field. -/
def ParseInterfaceDataOld (interfaceName dump : GoStr) : Except String Interface :=
  if !isValidInterfaceName interfaceName then
    Except.error ("invalid interface name")
  else
    let dumpLines := splitOnChar '\n' (goTrimSpace dump)
    if dumpLines.isEmpty then Except.error ("no data returned from wg show")
    else
      let interfaceParts := splitFields (dumpLines.headD [])
      if interfaceParts.length < 2 then Except.error ("invalid interface dump format")
      else
        let iface0 : Interface :=
          { Name := String.mk interfaceName, PublicKey := String.mk (interfaceParts.headD [])
            ListeningPort := 0, Peers := [] }
        let iface1 :=
          if interfaceParts.length ≥ 2 then
            match goAtoi (interfaceParts.getD 1 []) with
            | some p => { iface0 with ListeningPort := p }
            | none => iface0
          else iface0
        let peers := (dumpLines.drop 1).foldl
          (fun acc line =>
            let parts := splitFields line
            if parts.length < 1 then acc else acc ++ [parsePeerOld parts])
          []
        Except.ok { iface1 with Peers := peers }

/-- wireguard/parser.go peer-line handling (privileged header variant):
indices 0 = public key, 2 = endpoint, 3 = allowed IPs, 4 = handshake,
5 = rx bytes, 6 = tx bytes; the caller has already checked 7 fields. -/
def parsePeerCur (parts : List GoStr) : Peer :=
  let peer0 : Peer :=
    { PublicKey := String.mk (parts.headD []), DisplayName := ("")
      Endpoint := (""), AllowedIPs := [], LatestHandshake := none
      BytesSent := 0, BytesReceived := 0 }
  let peer1 :=
    if parts.getD 2 [] ≠ ('(' :: "none)".toList) then
      { peer0 with Endpoint := String.mk (parts.getD 2 []) }
    else peer0
  let peer2 := { peer1 with AllowedIPs := parseAllowedIPs (parts.getD 3 []) }
  let peer3 :=
    if parts.getD 4 [] ≠ ['0'] then
      match goParseInt (parts.getD 4 []) with
      | some t => if t > 0 then { peer2 with LatestHandshake := some t } else peer2
      | none => peer2
    else peer2
  let peer4 :=
    match goParseUint (parts.getD 5 []) with
    | some b => { peer3 with BytesReceived := b }
    | none => peer3
  match goParseUint (parts.getD 6 []) with
  | some b => { peer4 with BytesSent := b }
  | none => peer4

/-- wireguard/parser.go `ParseInterfaceData` with the subprocess output passed
in as `dump`: privileged header (field 0 = private key, field 1 = public key,
field 2 = port), header rejected below 4 fields, peer lines skipped below
7 fields. -/
def ParseInterfaceDataCur (interfaceName dump : GoStr) : Except String Interface :=
  if !isValidInterfaceName interfaceName then
    Except.error ("invalid interface name")
  else
    let dumpLines := splitOnChar '\n' (goTrimSpace dump)
    if dumpLines.isEmpty then Except.error ("no data returned from wg show")
    else
      let interfaceParts := splitFields (dumpLines.headD [])
      if interfaceParts.length < 4 then Except.error ("invalid interface dump format")
      else
        let iface0 : Interface :=
          { Name := String.mk interfaceName, PublicKey := String.mk (interfaceParts.getD 1 [])
            ListeningPort := 0, Peers := [] }
        let iface1 :=
          if interfaceParts.length ≥ 2 then
            match goAtoi (interfaceParts.getD 2 []) with
            | some p => { iface0 with ListeningPort := p }
            | none => iface0
          else iface0
        let peers := (dumpLines.drop 1).foldl
          (fun acc line =>
            let parts := splitFields line
            if parts.length < 7 then acc else acc ++ [parsePeerCur parts])
          []
        Except.ok { iface1 with Peers := peers }

/-- Character class `[\d.]` of the transfer regexps. -/
def isNumChar (c : Char) : Bool := c.isDigit || c == '.'

/-- Matcher for the regexp fragment `[KMGT]?i?B` at the head of `cs`,
returning the matched unit text and the remainder. Alternatives are tried
in the greedy (leftmost-first) order of the optional operators; for the
inputs evaluated in this development the result is uniquely determined
because a match requires a literal uppercase `B`. -/
def matchUnitTok (cs : GoStr) : Option (GoStr × GoStr) :=
  let tryB : GoStr → GoStr → Option (GoStr × GoStr) := fun pre rest =>
    match rest with
    | 'B' :: r2 => some (pre ++ ['B'], r2)
    | _ => none
  let tryI : GoStr → GoStr → Option (GoStr × GoStr) := fun pre rest =>
    match rest with
    | 'i' :: r2 =>
      match tryB (pre ++ ['i']) r2 with
      | some x => some x
      | none => tryB pre rest
    | _ => tryB pre rest
  match cs with
  | c :: r =>
    if c == 'K' || c == 'M' || c == 'G' || c == 'T' then
      match tryI [c] r with
      | some x => some x
      | none => tryI [] (c :: r)
    else tryI [] (c :: r)
  | [] => none

/-- Matcher for `([\d.]+)\s+([KMGT]?i?B)\s+word` anchored at the head of
`cs`, returning the two captures. The runs `[\d.]+` and `\s+` are taken
greedily without backtracking, which is equivalent here because the
character classes involved are pairwise disjoint. -/
def matchClauseAt (word : GoStr) (cs : GoStr) : Option (GoStr × GoStr) :=
  let num := cs.takeWhile isNumChar
  if num.isEmpty then none
  else
    let r1 := cs.drop num.length
    let sp1 := r1.takeWhile isSpaceRE2
    if sp1.isEmpty then none
    else
      let r2 := r1.drop sp1.length
      match matchUnitTok r2 with
      | none => none
      | some (unit, r3) =>
        let sp2 := r3.takeWhile isSpaceRE2
        if sp2.isEmpty then none
        else
          let r4 := r3.drop sp2.length
          if startsWithL word r4 then some (num, unit) else none

/-- Leftmost search for the clause pattern, as Go `FindStringSubmatch`
performs over the whole subject string. -/
def findClause (word : GoStr) : GoStr → Option (GoStr × GoStr)
  | [] => none
  | c :: cs =>
    match matchClauseAt word (c :: cs) with
    | some x => some x
    | none => findClause word cs

/-- Go `strconv.ParseFloat` restricted to the plain decimal forms that the
clause regexp `[\d.]+` can produce. The non-negative decimal `ip.fp` is
represented exactly as a mantissa/scale pair `(m, s)` denoting the rational
`m / 10^s`. The magnitudes exercised by the spec (integers and 1.5) and
their products with powers of 1024 below 2^53 are exactly representable in
binary64, so this exact arithmetic agrees with Go's float64 arithmetic on
them. -/
def goParseFloat (s : GoStr) : Option (Nat × Nat) :=
  match splitOnChar '.' s with
  | [ip] => (digitsToNat ip).map (fun n => (n, 0))
  | [ip, fp] =>
    if ip.isEmpty && fp.isEmpty then none
    else
      let ipn := if ip.isEmpty then some 0 else digitsToNat ip
      let fpn := if fp.isEmpty then some 0 else digitsToNat fp
      match ipn, fpn with
      | some a, some b => some (a * 10 ^ fp.length + b, fp.length)
      | _, _ => none
  | _ => none

/-- unnamed/part_000 `parseSize`: float magnitude times a 1024-based
multiplier selected by the upper-cased unit; unknown units are a hard
error. `uint64(value * float64(multiplier))` truncates the non-negative
product toward zero; with the exact mantissa/scale value `m / 10^s` that
floor is the natural-number quotient `(m * mult) / 10^s`. -/
def parseSize (valueStr unit : GoStr) : Except String Nat :=
  match goParseFloat valueStr with
  | none => Except.error ("invalid float")
  | some value =>
    let upperU := toUpperGo unit
    let mult : Option Nat :=
      if upperU = ['B'] then some 1
      else if upperU = ("KB").toList ∨ upperU = ("KIB").toList then some 1024
      else if upperU = ("MB").toList ∨ upperU = ("MIB").toList then some (1024 * 1024)
      else if upperU = ("GB").toList ∨ upperU = ("GIB").toList then some (1024 * 1024 * 1024)
      else if upperU = ("TB").toList ∨ upperU = ("TIB").toList then some (1024 * 1024 * 1024 * 1024)
      else none
    match mult with
    | none => Except.error ("unknown unit")
    | some m => Except.ok ((value.1 * m) / 10 ^ value.2)

/-- unnamed/part_000 `ParseTransferStats`: lower-case the whole input, then
search it with the case-sensitive patterns
`([\d.]+)\s+([KMGT]?i?B)\s+received` and `([\d.]+)\s+([KMGT]?i?B)\s+sent`;
a missing clause leaves the corresponding counter at 0, a `parseSize`
failure aborts with that error. -/
def ParseTransferStats (transferStr : GoStr) : Except String (Nat × Nat) :=
  let lower := toLowerGo transferStr
  let step1 : Except String Nat :=
    match findClause (("received").toList) lower with
    | some (num, unit) => parseSize num unit
    | none => Except.ok 0
  match step1 with
  | Except.error e => Except.error e
  | Except.ok received =>
    match findClause (("sent").toList) lower with
    | some (num, unit) => (parseSize num unit).map (fun sent => (received, sent))
    | none => Except.ok (received, 0)

instance {ε α : Type} [DecidableEq ε] [DecidableEq α] : DecidableEq (Except ε α) := fun a b =>
  match a, b with
  | Except.ok x, Except.ok y =>
    if h : x = y then isTrue (by rw [h]) else isFalse (by intro hc; injection hc; contradiction)
  | Except.error x, Except.error y =>
    if h : x = y then isTrue (by rw [h]) else isFalse (by intro hc; injection hc; contradiction)
  | Except.ok _, Except.error _ => isFalse (by intro hc; exact Except.noConfusion hc)
  | Except.error _, Except.ok _ => isFalse (by intro hc; exact Except.noConfusion hc)

/-- Case-insensitive character comparison on ASCII, for the `(?i)` regexps. -/
def charCI (a b : Char) : Bool :=
  toLowerGo [a] == toLowerGo [b]

/-- Case-insensitive keyword match at the head of `s`; returns the remainder
after the keyword. -/
def matchKeywordCI : GoStr → GoStr → Option GoStr
  | [], s => some s
  | _ :: _, [] => none
  | k :: ks, c :: cs => if charCI k c then matchKeywordCI ks cs else none

/-- parser.go `displayNameRegex`, the pattern
`(?i)^\s*#\s*display[-_]name\s*=\s*(.+)$` applied to an already trimmed
line: returns the captured value. On a trimmed line the leading `\s*` is
empty and the capture `(.+)` extends to the end of the line, so the capture
is exactly the text after the `=` with leading whitespace dropped; it is
`none` when nothing follows the `=`. -/
def matchDisplayNameLine (s : GoStr) : Option GoStr :=
  let s1 := s.dropWhile isSpaceRE2
  match s1 with
  | '#' :: r =>
    let r1 := r.dropWhile isSpaceRE2
    match matchKeywordCI (("display").toList) r1 with
    | none => none
    | some r2 =>
      match r2 with
      | c :: r3 =>
        if c == '-' || c == '_' then
          match matchKeywordCI (("name").toList) r3 with
          | none => none
          | some r4 =>
            let r5 := r4.dropWhile isSpaceRE2
            match r5 with
            | '=' :: r6 =>
              let r7 := r6.dropWhile isSpaceRE2
              if r7.isEmpty then none else some r7
            | _ => none
        else none
      | [] => none
  | _ => none

/-- parser.go `publicKeyRegex`, the pattern `(?i)^\s*PublicKey\s*=\s*(.+)$`
applied to an already trimmed line. -/
def matchPublicKeyLine (s : GoStr) : Option GoStr :=
  let s1 := s.dropWhile isSpaceRE2
  match matchKeywordCI (("publickey").toList) s1 with
  | none => none
  | some r1 =>
    let r2 := r1.dropWhile isSpaceRE2
    match r2 with
    | '=' :: r3 =>
      let r4 := r3.dropWhile isSpaceRE2
      if r4.isEmpty then none else some r4
    | _ => none

/-- The line scanner state of `ParseWireGuardConfigFile`. -/
structure CfgScanState where
  inPeerSection : Bool
  currentPublicKey : String
  currentDisplayName : String
  displayNames : Labels
deriving Repr, DecidableEq

/-- One iteration of the line loop in parser.go `ParseWireGuardConfigFile`. -/
def cfgScanLine (st : CfgScanState) (line : GoStr) : CfgScanState :=
  let trimmedLine := goTrimSpace line
  if startsWithL (("[Peer]").toList) trimmedLine then
    let names :=
      if st.inPeerSection ∧ st.currentPublicKey ≠ ("") ∧ st.currentDisplayName ≠ ("") then
        upsertA st.displayNames st.currentPublicKey st.currentDisplayName
      else st.displayNames
    { inPeerSection := true, currentPublicKey := (""), currentDisplayName := ("")
      displayNames := names }
  else if startsWithL ['['] trimmedLine ∧ String.mk trimmedLine ≠ ("[Peer]") then
    let names :=
      if st.currentPublicKey ≠ ("") ∧ st.currentDisplayName ≠ ("") then
        upsertA st.displayNames st.currentPublicKey st.currentDisplayName
      else st.displayNames
    { inPeerSection := false, currentPublicKey := (""), currentDisplayName := ("")
      displayNames := names }
  else if st.inPeerSection then
    let st1 :=
      match matchDisplayNameLine trimmedLine with
      | some cap =>
        let displayName := String.mk (goTrimSpace cap)
        if displayName ≠ ("") then
          if st.currentPublicKey ≠ ("") then
            { st with currentDisplayName := displayName
                      displayNames := upsertA st.displayNames st.currentPublicKey displayName }
          else { st with currentDisplayName := displayName }
        else st
      | none => st
    match matchPublicKeyLine trimmedLine with
    | some cap =>
      let publicKey := String.mk (goTrimSpace cap)
      if publicKey ≠ ("") then
        if st1.currentDisplayName ≠ ("") then
          { st1 with currentPublicKey := publicKey
                     displayNames := upsertA st1.displayNames publicKey st1.currentDisplayName }
        else { st1 with currentPublicKey := publicKey }
      else st1
    | none => st1
  else st

/-- parser.go `ParseWireGuardConfigFile` with the file contents passed in as
`data`: scan the lines, then commit a final pending pair if the file ended
inside a peer section. -/
def ParseWireGuardConfigFile (data : GoStr) : Labels :=
  let lines := splitOnChar '\n' data
  let st := lines.foldl cfgScanLine
    { inPeerSection := false, currentPublicKey := (""), currentDisplayName := ("")
      displayNames := [] }
  if st.inPeerSection ∧ st.currentPublicKey ≠ ("") ∧ st.currentDisplayName ≠ ("") then
    upsertA st.displayNames st.currentPublicKey st.currentDisplayName
  else st.displayNames

/-- The resolved configuration the collector reads (config package):
the endpoint-visibility switch and the per-interface static label maps. -/
structure CollectorConfig where
  ShowEndpoints : Bool
  InterfaceLabels : List (String × Labels)
deriving Repr, DecidableEq

/-- collector.go `buildLabels`: start from the `interface` label, then merge
in the static labels configured for this interface, if any. -/
def buildLabels (cfg : CollectorConfig) (ifaceName : String) : Labels :=
  let base : Labels := [(("interface"), ifaceName)]
  match lookupA cfg.InterfaceLabels ifaceName with
  | some customLabels => mergeLabels base customLabels
  | none => base

/-- collector.go `buildPeerLabels`: start from the `interface` and
`peer_public_key` labels, then merge in the static labels configured for
this interface, if any. -/
def buildPeerLabels (cfg : CollectorConfig) (ifaceName : String) (peer : Peer) : Labels :=
  let base : Labels := [(("interface"), ifaceName), (("peer_public_key"), peer.PublicKey)]
  match lookupA cfg.InterfaceLabels ifaceName with
  | some customLabels => mergeLabels base customLabels
  | none => base

/-- metrics package: the variable label names the peer-level gauge vectors
(`wireguard_peer_latest_handshake_seconds`, `wireguard_peer_handshake_age_seconds`,
`wireguard_peer_bytes_sent`, `wireguard_peer_bytes_received`,
`wireguard_peer_allowed_ips_count`) are declared metrics with. -/
def peerMetricLabelNames : List String := [("interface"), ("peer")]

/-- The consistency check `GaugeVec.With` performs before returning a child
gauge (prometheus `hashLabels`): the supplied label map must have exactly as
many entries as the declared variable labels, and every declared label name
must be present. `With` panics when this check fails. -/
def labelsValid (declared : List String) (m : Labels) : Bool :=
  (m.length == declared.length) && declared.all (fun n => (lookupA m n).isSome)

/-- One metric vector of the snapshot: child gauges keyed by their label
map. Gauge values are modelled as `Int`; every value written by the
collector (peer counts, ports, Unix timestamps, byte counters, 0/1 flags)
is integral and far below 2^53, so the float64 conversion is exact. -/
abbrev Vec := List (Labels × Int)

/-- The eight gauge vectors of the metrics package. -/
structure Vectors where
  peersTotal : Vec
  latestHandshake : Vec
  handshakeAge : Vec
  bytesSent : Vec
  bytesReceived : Vec
  listeningPort : Vec
  endpoint : Vec
  allowedIPsCount : Vec
deriving Repr, DecidableEq

/-- The state right after the `Reset()` calls at the top of `Collect`. -/
def emptyVectors : Vectors :=
  { peersTotal := [], latestHandshake := [], handshakeAge := [], bytesSent := []
    bytesReceived := [], listeningPort := [], endpoint := [], allowedIPsCount := [] }

/-- metrics package: the variable label names the interface-level gauge
vectors (`wireguard_peers_total`, `wireguard_interface_listening_port`) are
declared with. -/
def interfaceMetricLabelNames : List String := [("interface")]

/-- metrics package: the variable label names `wireguard_peer_endpoint` is
declared with. -/
def endpointMetricLabelNames : List String := [("interface"), ("peer"), ("endpoint")]

/-- One `vec.With(labels).Set(v)` call: `With` first runs the
label-consistency check against the vector's declared variable labels and
panics when it fails; only when it passes is the child gauge under
`labels` set to `v`. `none` models the panic, which in the real program
escapes `Collect` (the prometheus registry does not recover it) and kills
the scrape. -/
def vset (declared : List String) (vec : Vec) (l : Labels) (v : Int) : Option Vec :=
  if labelsValid declared l then some (upsertA vec l v) else none

/-- The per-peer body of the `Collect` loop: handshake gauges (with the age
computed as now minus the handshake time), transfer gauges, the endpoint
flag gauge, and the allowed-IPs count, in the order of the Go `With` calls;
every write goes through `vset`, so the first failing `With` aborts the
whole cycle exactly as its panic does. -/
def writePeer (cfg : CollectorConfig) (now : Int) (ifaceName : String)
    (st : Vectors) (peer : Peer) : Option Vectors := do
  let peerLabels := buildPeerLabels cfg ifaceName peer
  let st1 ←
    match peer.LatestHandshake with
    | some t => do
      let lh ← vset peerMetricLabelNames st.latestHandshake peerLabels t
      let ha ← vset peerMetricLabelNames st.handshakeAge peerLabels (now - t)
      pure { st with latestHandshake := lh, handshakeAge := ha }
    | none => do
      let lh ← vset peerMetricLabelNames st.latestHandshake peerLabels 0
      let ha ← vset peerMetricLabelNames st.handshakeAge peerLabels 0
      pure { st with latestHandshake := lh, handshakeAge := ha }
  let bs ← vset peerMetricLabelNames st1.bytesSent peerLabels (peer.BytesSent : Int)
  let br ← vset peerMetricLabelNames st1.bytesReceived peerLabels (peer.BytesReceived : Int)
  let st2 := { st1 with bytesSent := bs, bytesReceived := br }
  let st3 ←
    if cfg.ShowEndpoints ∧ peer.Endpoint ≠ ("") then do
      let ev ← vset endpointMetricLabelNames st2.endpoint
        (upsertA peerLabels ("endpoint") peer.Endpoint) 1
      pure { st2 with endpoint := ev }
    else do
      let ev ← vset endpointMetricLabelNames st2.endpoint
        (upsertA peerLabels ("endpoint") ("")) 0
      pure { st2 with endpoint := ev }
  let ac ← vset peerMetricLabelNames st3.allowedIPsCount peerLabels (peer.AllowedIPs.length : Int)
  pure { st3 with allowedIPsCount := ac }

/-- The per-interface body of the `Collect` loop: interface-level gauges,
then the peer loop; a panic in any `With` call propagates out. -/
def writeInterface (cfg : CollectorConfig) (now : Int) (st : Vectors)
    (ifaceName : String) (iface : Interface) : Option Vectors := do
  let labels := buildLabels cfg ifaceName
  let pt ← vset interfaceMetricLabelNames st.peersTotal labels (iface.Peers.length : Int)
  let lp ← vset interfaceMetricLabelNames st.listeningPort labels iface.ListeningPort
  iface.Peers.foldlM (writePeer cfg now ifaceName)
    { st with peersTotal := pt, listeningPort := lp }

/-- The series emitted to the channel at the end of `Collect`, in the order
of the `Collect(ch)` calls: each entry is (metric name, labels, value). -/
def emitSnapshot (st : Vectors) : List (String × Labels × Int) :=
  st.peersTotal.map (fun p => (("wireguard_peers_total"), p)) ++
  st.latestHandshake.map (fun p => (("wireguard_peer_latest_handshake_seconds"), p)) ++
  st.handshakeAge.map (fun p => (("wireguard_peer_handshake_age_seconds"), p)) ++
  st.bytesSent.map (fun p => (("wireguard_peer_bytes_sent"), p)) ++
  st.bytesReceived.map (fun p => (("wireguard_peer_bytes_received"), p)) ++
  st.listeningPort.map (fun p => (("wireguard_interface_listening_port"), p)) ++
  st.endpoint.map (fun p => (("wireguard_peer_endpoint"), p)) ++
  st.allowedIPsCount.map (fun p => (("wireguard_peer_allowed_ips_count"), p))

/-- One iteration of the interface loop in `Collect`: a parse error is
logged and the interface skipped (the state passes through unchanged);
a successful parse writes the interface, with any `With` panic inside
propagating. -/
def collectStep (cfg : CollectorConfig) (now : Int)
    (parseIface : String → Except Unit Interface) (st : Vectors) (ifaceName : String) :
    Option Vectors :=
  match parseIface ifaceName with
  | Except.error _ => some st
  | Except.ok iface => writeInterface cfg now st ifaceName iface

/-- collector.go `Collect`, one collection cycle, with the two external
effects passed in as functions: `discovered` is the result of
`DiscoverInterfaces` and `parseIface` the result of `ParseInterfaceData`
per interface; `now` is the wall clock at collection time. A discovery
error returns before anything is written or emitted (`some []`: the cycle
completes with an empty snapshot); otherwise the interfaces are processed
in order and the vectors' contents are emitted at the end, unless a `With`
panic (`none`) aborted the cycle first. -/
def collectCycle (cfg : CollectorConfig) (now : Int)
    (discovered : Except Unit (List String))
    (parseIface : String → Except Unit Interface) : Option (List (String × Labels × Int)) :=
  match discovered with
  | Except.error _ => some []
  | Except.ok interfaces =>
    (interfaces.foldlM (collectStep cfg now parseIface) emptyVectors).map emitSnapshot

lemma lookupA_upsertA_self {β : Type} (m : List (String × β)) (k : String) (v : β) :
    lookupA (upsertA m k v) k = some v := by
  induction m with
  | nil => simp [upsertA, lookupA]
  | cons p r ih =>
    by_cases h : p.1 = k
    · simp [upsertA, h, lookupA]
    · simp [upsertA, h, lookupA, ih]

lemma lookupA_upsertA_ne {β : Type} (m : List (String × β)) (k a : String) (v : β)
    (h : a ≠ k) : lookupA (upsertA m k v) a = lookupA m a := by
  induction m with
  | nil => simp [upsertA, lookupA, Ne.symm h]
  | cons p r ih =>
    by_cases hp : p.1 = k
    · simp only [upsertA, if_pos hp, lookupA]
      rw [if_neg (Ne.symm h), if_neg (fun hc => h (hp ▸ hc).symm)]
    · simp [upsertA, hp, lookupA, ih]

lemma lookupA_isSome_mergeLabels (b c : Labels) (k : String)
    (h : (lookupA b k).isSome) : (lookupA (mergeLabels b c) k).isSome := by
  induction c generalizing b with
  | nil => simpa [mergeLabels] using h
  | cons p r ih =>
    show (lookupA (mergeLabels (upsertA b p.1 p.2) r) k).isSome
    apply ih
    by_cases hp : k = p.1
    · rw [hp, lookupA_upsertA_self]
      rfl
    · rw [lookupA_upsertA_ne _ _ _ _ hp]
      exact h

lemma lookupA_isSome_mem {β : Type} (m : List (String × β)) (k : String)
    (h : (lookupA m k).isSome) : k ∈ m.map Prod.fst := by
  induction m with
  | nil => simp [lookupA] at h
  | cons p r ih =>
    by_cases hp : p.1 = k
    · simp [hp]
    · simp [lookupA, hp] at h
      simp [ih h]

/-- Claim C1 (code bug): the spec says every peer-level label set contains a
`peer` label valued with the resolved display name when one matched, and the
bare public key otherwise. The code instead labels peers under the key
`peer_public_key`, always with the bare public key: `buildPeerLabels`
produces no `peer` key at all and ignores `Peer.DisplayName` entirely (the
collector never invokes display-name resolution). Evaluated here at a
concrete cycle input: a peer with public key `PK1` and display name `Alice`
yields a label set with no `peer` entry and with
`peer_public_key = PK1`. -/
theorem c1_peer_label_divergence :
    lookupA (buildPeerLabels { ShowEndpoints := true, InterfaceLabels := [] } ("wg0")
      { PublicKey := ("PK1"), DisplayName := ("Alice"), Endpoint := (""), AllowedIPs := [],
        LatestHandshake := none, BytesSent := 0, BytesReceived := 0 }) ("peer") = none ∧
    lookupA (buildPeerLabels { ShowEndpoints := true, InterfaceLabels := [] } ("wg0")
      { PublicKey := ("PK1"), DisplayName := ("Alice"), Endpoint := (""), AllowedIPs := [],
        LatestHandshake := none, BytesSent := 0, BytesReceived := 0 }) ("peer_public_key")
      = some ("PK1") := by
  constructor
  · rfl
  · rfl

/-- Claim C2 (confirmed): for every configuration, interface name and peer,
the label map `buildPeerLabels` produces fails the label-consistency check
of the peer-level metric vectors, which are declared with variable labels
`interface` and `peer`: the map always carries the key `peer_public_key`,
so either the declared name `peer` is missing from it, or (when a static
label named `peer` was configured) the map has more entries than the
declared two. Hence the panic branch of `With` is reachable on every cycle
that reaches a peer. -/
theorem c2_peer_label_check_fails (cfg : CollectorConfig) (ifaceName : String) (peer : Peer) :
    labelsValid peerMetricLabelNames (buildPeerLabels cfg ifaceName peer) = false := by
  have hpk : (lookupA (buildPeerLabels cfg ifaceName peer) ("peer_public_key")).isSome := by
    unfold buildPeerLabels
    cases hc : lookupA cfg.InterfaceLabels ifaceName with
    | none => simp [lookupA]
    | some custom =>
      apply lookupA_isSome_mergeLabels
      simp [lookupA]
  have hif : (lookupA (buildPeerLabels cfg ifaceName peer) ("interface")).isSome := by
    unfold buildPeerLabels
    cases hc : lookupA cfg.InterfaceLabels ifaceName with
    | none => simp [lookupA]
    | some custom =>
      apply lookupA_isSome_mergeLabels
      simp [lookupA]
  rcases Bool.eq_false_or_eq_true
      (labelsValid peerMetricLabelNames (buildPeerLabels cfg ifaceName peer)) with h | h
  · exfalso
    unfold labelsValid peerMetricLabelNames at h
    simp only [Bool.and_eq_true, beq_iff_eq, List.all_eq_true, List.mem_cons,
      List.mem_singleton] at h
    obtain ⟨hlen, hall⟩ := h
    have hpeer : (lookupA (buildPeerLabels cfg ifaceName peer) ("peer")).isSome := by
      apply hall
      simp
    have m1 := lookupA_isSome_mem _ _ hif
    have m2 := lookupA_isSome_mem _ _ hpeer
    have m3 := lookupA_isSome_mem _ _ hpk
    have hkl : ((buildPeerLabels cfg ifaceName peer).map Prod.fst).length = 2 := by
      rw [List.length_map, hlen]
      rfl
    obtain ⟨a, b, hab⟩ := List.length_eq_two.mp hkl
    rw [hab] at m1 m2 m3
    simp only [List.mem_cons, List.mem_singleton, List.not_mem_nil, or_false] at m1 m2 m3
    rcases m1 with h1 | h1 <;> rcases m2 with h2 | h2 <;> rcases m3 with h3 | h3 <;>
      subst_vars <;> simp_all
  · exact h

/-- The dump fixture of the spec's testable property: header `PUBKEY 51820`,
one peer line `PEER2\t(none)\t10.0.0.2/32\t0\t100\t200`. -/
def dumpFixture : GoStr :=
  ("PUBKEY 51820\nPEER2\t(none)\t10.0.0.2/32\t0\t100\t200").toList

/-- Claim C3, counterexample: on the fixture, the parser.go version of
`ParseInterfaceData` (privileged header contract, at least 4 header fields
required) does not succeed: it rejects the two-field header
`PUBKEY 51820` as an invalid dump format, contradicting the claim that
parsing the fixture succeeds. -/
theorem c3_counterexample_cur_rejects_fixture :
    ParseInterfaceDataCur (("wg0").toList) dumpFixture =
      Except.error ("invalid interface dump format") := by
  rfl

/-- Claim C3 as amended: the restricted-header version of
`ParseInterfaceData` (unnamed/part_000) parses the fixture successfully and
yields exactly the claimed interface: listening port 51820, one peer with
endpoint absent, allowed IPs `[10.0.0.2/32]`, no handshake, 100 bytes
received, 200 bytes sent; the privileged-header version (parser.go) instead
rejects the fixture's header. -/
theorem c3_amended_old_parses_fixture :
    ParseInterfaceDataOld (("wg0").toList) dumpFixture = Except.ok
      { Name := ("wg0"), PublicKey := ("PUBKEY"), ListeningPort := 51820,
        Peers := [{ PublicKey := ("PEER2"), DisplayName := (""), Endpoint := (""),
                    AllowedIPs := [("10.0.0.2/32")], LatestHandshake := none,
                    BytesSent := 200, BytesReceived := 100 }] } := by
  rfl

/-- A privileged-shape dump header: private key, public key, port, fwmark. -/
def dumpHeader4 : GoStr := ("PRIV PUB 51820 off").toList

/-- A restricted-shape dump header: public key, port. -/
def dumpHeader2 : GoStr := ("PUB2 1234").toList

/-- Claim C4, counterexample: the two versions of `ParseInterfaceData` do
not compute the same result for every dump text. On the privileged-shape
header `PRIV PUB 51820 off` they disagree: neither version inspects the
field count to detect the header shape, each assumes one shape, so the
restricted variant silently misreads the private-key slot as the public key
and fails to parse the port. -/
theorem c4_counterexample_versions_disagree :
    ParseInterfaceDataCur (("wg0").toList) dumpHeader4 ≠
      ParseInterfaceDataOld (("wg0").toList) dumpHeader4 := by
  have hA : ParseInterfaceDataCur (("wg0").toList) dumpHeader4 =
      Except.ok { Name := ("wg0"), PublicKey := ("PUB"), ListeningPort := 51820, Peers := [] } := by
    rfl
  have hB : ParseInterfaceDataOld (("wg0").toList) dumpHeader4 =
      Except.ok { Name := ("wg0"), PublicKey := ("PRIV"), ListeningPort := 0, Peers := [] } := by
    rfl
  rw [hA, hB]
  simp

/-- Claim C4 as amended: each version fixes one header contract and performs
no shape detection. On the privileged four-field header, the parser.go
version reads public key `PUB` and port 51820 while the part_000 version
silently takes the private-key slot `PRIV` as the public key and leaves the
port 0 (the public-key slot does not parse as a port); on the restricted
two-field header, the part_000 version succeeds while the parser.go version
rejects the whole dump. -/
theorem c4_amended_fixed_shapes :
    ParseInterfaceDataCur (("wg0").toList) dumpHeader4 =
      Except.ok { Name := ("wg0"), PublicKey := ("PUB"), ListeningPort := 51820, Peers := [] } ∧
    ParseInterfaceDataOld (("wg0").toList) dumpHeader4 =
      Except.ok { Name := ("wg0"), PublicKey := ("PRIV"), ListeningPort := 0, Peers := [] } ∧
    ParseInterfaceDataOld (("wg0").toList) dumpHeader2 =
      Except.ok { Name := ("wg0"), PublicKey := ("PUB2"), ListeningPort := 1234, Peers := [] } ∧
    ParseInterfaceDataCur (("wg0").toList) dumpHeader2 =
      Except.error ("invalid interface dump format") := by
  exact ⟨rfl, rfl, rfl, rfl⟩

lemma allowedRune_utf8Size (c : Char)
    (h : (('A' ≤ c ∧ c ≤ 'Z') ∨ ('a' ≤ c ∧ c ≤ 'z') ∨ ('0' ≤ c ∧ c ≤ '9') ∨ c = '-' ∨ c = '_')) :
    c.utf8Size = 1 := by
  have hv : c.val ≤ (0x7F : UInt32) := by
    rcases h with ⟨h1, h2⟩ | ⟨h1, h2⟩ | ⟨h1, h2⟩ | h | h
    · exact UInt32.le_trans (Char.le_def.mp h2) (by decide)
    · exact UInt32.le_trans (Char.le_def.mp h2) (by decide)
    · exact UInt32.le_trans (Char.le_def.mp h2) (by decide)
    · rw [h]
      decide
    · rw [h]
      decide
  unfold Char.utf8Size
  simp [hv]

lemma goByteLen_eq_length (s : GoStr)
    (h : ∀ c ∈ s, (('A' ≤ c ∧ c ≤ 'Z') ∨ ('a' ≤ c ∧ c ≤ 'z') ∨ ('0' ≤ c ∧ c ≤ '9') ∨ c = '-' ∨ c = '_')) :
    goByteLen s = s.length := by
  induction s with
  | nil => rfl
  | cons c cs ih =>
    have h1 := allowedRune_utf8Size c (h c (by simp))
    have h2 := ih (fun x hx => h x (by simp [hx]))
    simp only [goByteLen, List.map_cons, List.sum_cons, List.length_cons] at h2 ⊢
    omega

lemma allowedRune_bool_iff (r : Char) :
    ((decide ('a' ≤ r) && decide (r ≤ 'z')) ||
     (decide ('A' ≤ r) && decide (r ≤ 'Z')) ||
     (decide ('0' ≤ r) && decide (r ≤ '9')) ||
     r == '-' || r == '_') = true ↔
    (('A' ≤ r ∧ r ≤ 'Z') ∨ ('a' ≤ r ∧ r ≤ 'z') ∨ ('0' ≤ r ∧ r ≤ '9') ∨ r = '-' ∨ r = '_') := by
  simp only [Bool.or_eq_true, Bool.and_eq_true, decide_eq_true_iff, beq_iff_eq]
  tauto

/-- Claim C5 (confirmed): `isValidInterfaceName` accepts a string exactly
when its length is between 1 and 15 and every character is an ASCII letter,
an ASCII digit, `-` or `_`; in particular any string containing `;`, `|`,
`$` or a space is rejected. (Go measures the length in bytes; for accepted
strings every character is ASCII, so byte length and character count
agree, and over-long multi-byte strings fail the character check too.) -/
theorem c5_validator_iff (s : GoStr) :
    (isValidInterfaceName s = true ↔
      (1 ≤ s.length ∧ s.length ≤ 15 ∧
        ∀ c ∈ s, (('A' ≤ c ∧ c ≤ 'Z') ∨ ('a' ≤ c ∧ c ≤ 'z') ∨
          ('0' ≤ c ∧ c ≤ '9') ∨ c = '-' ∨ c = '_'))) ∧
    ((∃ c ∈ s, c = ';' ∨ c = '|' ∨ c = '$' ∨ c = ' ') → isValidInterfaceName s = false) := by
  have main : isValidInterfaceName s = true ↔
      (1 ≤ s.length ∧ s.length ≤ 15 ∧
        ∀ c ∈ s, (('A' ≤ c ∧ c ≤ 'Z') ∨ ('a' ≤ c ∧ c ≤ 'z') ∨
          ('0' ≤ c ∧ c ≤ '9') ∨ c = '-' ∨ c = '_')) := by
    constructor
    · intro h
      unfold isValidInterfaceName at h
      split at h
      · exact absurd h (by simp)
      · rename_i hcond
        simp only [Bool.or_eq_true, beq_iff_eq, decide_eq_true_iff, not_or] at hcond
        have hall : ∀ c ∈ s, (('A' ≤ c ∧ c ≤ 'Z') ∨ ('a' ≤ c ∧ c ≤ 'z') ∨
            ('0' ≤ c ∧ c ≤ '9') ∨ c = '-' ∨ c = '_') := by
          intro c hc
          have := (List.all_eq_true.mp h) c hc
          exact (allowedRune_bool_iff c).mp this
        have hbl := goByteLen_eq_length s hall
        refine ⟨?_, ?_, hall⟩
        · omega
        · omega
    · rintro ⟨h1, h2, h3⟩
      unfold isValidInterfaceName
      have hbl := goByteLen_eq_length s h3
      rw [if_neg]
      · exact List.all_eq_true.mpr (fun c hc => (allowedRune_bool_iff c).mpr (h3 c hc))
      · simp only [Bool.or_eq_true, beq_iff_eq, decide_eq_true_iff, not_or]
        omega
  refine ⟨main, ?_⟩
  rintro ⟨c, hc, hcs⟩
  rcases Bool.eq_false_or_eq_true (isValidInterfaceName s) with h | h
  · exfalso
    have := (main.mp h).2.2 c hc
    rcases hcs with h1 | h1 | h1 | h1 <;> subst h1 <;> revert this <;> decide
  · exact h

/-- Witness for C5: the validator accepts `wg0` and rejects `wg;0`,
obtained by instantiating `c5_validator_iff` at those concrete strings. -/
theorem c5_validator_iff_witness :
    isValidInterfaceName (("wg0").toList) = true ∧
    isValidInterfaceName (("wg;0").toList) = false :=
  ⟨(c5_validator_iff (("wg0").toList)).1.mpr (by decide),
   (c5_validator_iff (("wg;0").toList)).2 (by decide)⟩

lemma splitOnChar_ne_nil (sep : Char) (l : GoStr) : splitOnChar sep l ≠ [] := by
  cases l with
  | nil => simp [splitOnChar]
  | cons c cs =>
    unfold splitOnChar
    by_cases h : (c == sep) = true
    · simp [h]
    · simp only [h]
      cases hr : splitOnChar sep cs with
      | nil => simp
      | cons hh tt => simp

lemma splitOnChar_length (sep : Char) (l : GoStr) :
    (splitOnChar sep l).length = l.count sep + 1 := by
  induction l with
  | nil => simp [splitOnChar]
  | cons c cs ih =>
    unfold splitOnChar
    by_cases h : (c == sep) = true
    · have hc : c = sep := by simpa using h
      simp [h, ih, hc, List.count_cons]
    · have hc : ¬ (sep == c) = true := by
        simp at h ⊢
        exact fun hc2 => h hc2.symm
      cases hr : splitOnChar sep cs with
      | nil => exact absurd hr (splitOnChar_ne_nil sep cs)
      | cons hh tt =>
        simp only [h]
        rw [hr] at ih
        simp only [List.length_cons] at ih
        simp [List.count_cons, h, hc]
        omega

lemma splitOnChar_getLast_empty (sep : Char) (l : GoStr)
    (h : l.getLast? = some sep) : (splitOnChar sep l).getLast? = some [] := by
  induction l with
  | nil => simp at h
  | cons c cs ih =>
    cases hcs : cs with
    | nil =>
      subst hcs
      simp only [List.getLast?_singleton] at h
      have hc : c = sep := by injection h
      subst hc
      simp [splitOnChar]
    | cons d ds =>
      rw [hcs] at ih h
      have htail : (d :: ds).getLast? = some sep := by
        rwa [List.getLast?_cons_cons] at h
      have ihr := ih htail
      have hne := splitOnChar_ne_nil sep (d :: ds)
      unfold splitOnChar
      by_cases hc : (c == sep) = true
      · simp only [hc, if_pos]
        exact List.mem_getLast?_cons ihr
      · simp only [hc, Bool.false_eq_true, if_false]
        cases hr : splitOnChar sep (d :: ds) with
        | nil => exact absurd hr hne
        | cons hh tt =>
          cases htt : tt with
          | nil =>
            exfalso
            have hlen := splitOnChar_length sep (d :: ds)
            rw [hr, htt] at hlen
            simp at hlen
            have hmem : sep ∈ (d :: ds) := List.mem_of_mem_getLast? htail
            have := List.count_pos_iff.mpr hmem
            omega
          | cons u us =>
            subst htt
            rw [List.getLast?_cons_cons]
            rw [hr] at ihr
            rwa [List.getLast?_cons_cons] at ihr

/-- A dump whose single peer line carries a trailing comma in its
allowed-IPs field. -/
def dumpTrailingComma : GoStr :=
  ("PRIV PUB 51820 off\nPEER1 PSK 1.2.3.4:51820 10.0.0.2/32, 0 100 200 off").toList

/-- Claim C6, counterexample: empty allowed-IPs entries are not dropped.
Parsing a peer line whose allowed-IPs field is `10.0.0.2/32,` (trailing
comma) yields the allowed-IPs list containing the empty string as its
second element, contradicting the claim that every element is non-empty. -/
theorem c6_counterexample_empty_entry_kept :
    (ParseInterfaceDataCur (("wg0").toList) dumpTrailingComma).map
      (fun i => i.Peers.map Peer.AllowedIPs) =
      Except.ok [[("10.0.0.2/32"), ("")]] := by
  rfl

/-- Claim C6 as amended: the allowed-IPs field is split on `,` and each
entry is trimmed of surrounding whitespace, but empty entries are kept, not
dropped: the number of entries always equals the number of commas plus one,
and a field with a trailing comma contributes a final empty entry. -/
theorem c6_amended_empties_kept (fld : GoStr) :
    (parseAllowedIPs fld).length = fld.count ',' + 1 ∧
    (fld.getLast? = some ',' → (parseAllowedIPs fld).getLast? = some ("")) := by
  constructor
  · unfold parseAllowedIPs
    rw [List.length_map, splitOnChar_length]
  · intro h
    unfold parseAllowedIPs
    rw [List.getLast?_map, splitOnChar_getLast_empty _ _ h]
    rfl

/-- Witness for C6 as amended: instantiating `c6_amended_empties_kept` at
the field `10.0.0.2/32,` gives two entries and a final empty entry. -/
theorem c6_amended_empties_kept_witness :
    (parseAllowedIPs (("10.0.0.2/32,").toList)).length =
      (("10.0.0.2/32,").toList).count ',' + 1 ∧
    (parseAllowedIPs (("10.0.0.2/32,").toList)).getLast? = some ("") :=
  ⟨(c6_amended_empties_kept (("10.0.0.2/32,").toList)).1,
   (c6_amended_empties_kept (("10.0.0.2/32,").toList)).2 (by decide)⟩

/-- Claim C7 (code bug): the byte-size fallback decoder never decodes
anything. `ParseTransferStats` lower-cases its input before matching, but
its unit pattern `[KMGT]?i?B` only matches upper-case letters, so the
clause regexp cannot match the lowered text: `2 MiB received` and
`1.5 GiB received` decode to 0 with no error, and the unknown unit `XB`
never reaches the unit check, also yielding 0 with no error. The claimed
arithmetic (1024-based, exact, unknown unit a hard error) does hold for the
underlying `parseSize`, which is unreachable from `ParseTransferStats`. -/
theorem c7_transfer_stats_never_match :
    ParseTransferStats (("2 MiB received").toList) = Except.ok (0, 0) ∧
    ParseTransferStats (("1.5 GiB received").toList) = Except.ok (0, 0) ∧
    ParseTransferStats (("2 XB received").toList) = Except.ok (0, 0) ∧
    parseSize (("2").toList) (("MiB").toList) = Except.ok 2097152 ∧
    parseSize (("1.5").toList) (("GiB").toList) = Except.ok 1610612736 ∧
    parseSize (("2").toList) (("XB").toList) = Except.error ("unknown unit") := by
  exact ⟨rfl, rfl, rfl, rfl, rfl, rfl⟩

/-- A config file whose single peer section holds one display-name line
followed by two different public-key lines. -/
def cfgTwoKeys : GoStr :=
  ("[Peer]\n# display-name = Alice\nPublicKey = KEY1\nPublicKey = KEY2\n").toList

/-- Claim C8, counterexample: a `[Peer]` section with a display-name line
followed by two different PublicKey lines contributes BOTH keys to the
mapping, not only the last one: the immediate commit fires for each
PublicKey line once a display name is pending, and earlier commits are
never removed. -/
theorem c8_counterexample_both_keys_mapped :
    ParseWireGuardConfigFile cfgTwoKeys = [(("KEY1"), ("Alice")), (("KEY2"), ("Alice"))] := by
  rfl

/-- A config file with a multi-commit peer section followed by a peer
section that has no display-name line. -/
def cfgTwoSections : GoStr :=
  ("[Peer]\n# display-name = Alice\nPublicKey = KEY1\nPublicKey = KEY2\n[Peer]\nPublicKey = KEY3\n").toList

/-- Claim C8 as amended: within a `[Peer]` section the last value seen for
each field drives later commits and the end-of-section commit, but every
immediate commit persists in the mapping, so a section may contribute one
entry per public-key line seen while a display name is pending: the section
`display-name = Alice; PublicKey = KEY1; PublicKey = KEY2` maps both KEY1
and KEY2 to Alice; a section with a public key but no display-name line
still contributes nothing. -/
theorem c8_amended_commits_persist :
    ParseWireGuardConfigFile cfgTwoSections = [(("KEY1"), ("Alice")), (("KEY2"), ("Alice"))] ∧
    lookupA (ParseWireGuardConfigFile cfgTwoSections) ("KEY3") = none := by
  exact ⟨rfl, rfl⟩

lemma lookupA_append {β : Type} (l1 l2 : List (String × β)) (k : String) :
    lookupA (l1 ++ l2) k = (lookupA l1 k).or (lookupA l2 k) := by
  induction l1 with
  | nil => simp [lookupA]
  | cons p r ih =>
    by_cases h : p.1 = k
    · simp [lookupA, h]
    · simp [lookupA, h, ih]

lemma lookupA_eq_none_of_not_mem {β : Type} (m : List (String × β)) (k : String)
    (h : k ∉ m.map Prod.fst) : lookupA m k = none := by
  cases ho : lookupA m k with
  | none => rfl
  | some v =>
    exfalso
    exact h (lookupA_isSome_mem m k (by rw [ho]; rfl))

lemma lookupA_mergeLabels (b c : Labels) (k : String) :
    lookupA (mergeLabels b c) k = (lookupA c.reverse k).or (lookupA b k) := by
  induction c generalizing b with
  | nil => simp [mergeLabels, lookupA]
  | cons p r ih =>
    show lookupA (mergeLabels (upsertA b p.1 p.2) r) k = _
    rw [ih]
    rw [List.reverse_cons, lookupA_append, Option.or_assoc]
    congr 1
    by_cases h : k = p.1
    · subst h
      rw [lookupA_upsertA_self]
      simp [lookupA]
    · rw [lookupA_upsertA_ne _ _ _ _ h]
      simp only [lookupA]
      rw [if_neg (fun hc => h hc.symm)]
      simp [lookupA]

lemma lookupA_reverse_of_nodup {β : Type} (c : List (String × β)) (k : String)
    (hnd : (c.map Prod.fst).Nodup) : lookupA c.reverse k = lookupA c k := by
  induction c with
  | nil => rfl
  | cons p r ih =>
    simp only [List.map_cons, List.nodup_cons] at hnd
    obtain ⟨hp, hr⟩ := hnd
    rw [List.reverse_cons, lookupA_append, ih hr]
    by_cases h : p.1 = k
    · subst h
      rw [lookupA_eq_none_of_not_mem r p.1 hp]
      simp [lookupA]
    · simp only [lookupA]
      rw [if_neg h, if_neg h]
      simp [lookupA]

/-- Claim C9, counterexample: static interface labels ARE allowed to shadow
the `interface` label. With the static label map of `wg0` containing the
key `interface` bound to `evil`, `buildLabels` yields `interface = evil`,
not the interface name `wg0` derived from discovery. -/
theorem c9_counterexample_interface_shadowed :
    lookupA (buildLabels
      { ShowEndpoints := true, InterfaceLabels := [(("wg0"), [(("interface"), ("evil"))])] }
      ("wg0")) ("interface") = some ("evil") ∧
    lookupA (buildLabels
      { ShowEndpoints := true, InterfaceLabels := [(("wg0"), [(("interface"), ("evil"))])] }
      ("wg0")) ("interface") ≠ some ("wg0") := by
  constructor
  · rfl
  · intro h
    have : (("evil") : String) = ("wg0") := by
      have h0 : lookupA (buildLabels
          { ShowEndpoints := true, InterfaceLabels := [(("wg0"), [(("interface"), ("evil"))])] }
          ("wg0")) ("interface") = some ("evil") := rfl
      injection h0.symm.trans h
    simp at this

/-- Claim C9 as amended: operator-configured static labels are merged after
the identity labels and DO shadow them. Whenever the static label map
configured for an interface binds the key `interface` (its bindings having
the distinct keys a Go map guarantees), both the interface-level and the
peer-level built label sets carry the static value for `interface` instead
of the discovered interface name; peer-level sets carry no `peer` key that
could be protected at all. -/
theorem c9_amended_static_labels_shadow (cfg : CollectorConfig) (name : String)
    (custom : Labels) (v : String)
    (hc : lookupA cfg.InterfaceLabels name = some custom)
    (hnd : (custom.map Prod.fst).Nodup)
    (hv : lookupA custom ("interface") = some v) :
    lookupA (buildLabels cfg name) ("interface") = some v ∧
    ∀ peer : Peer, lookupA (buildPeerLabels cfg name peer) ("interface") = some v := by
  constructor
  · unfold buildLabels
    rw [hc, lookupA_mergeLabels, lookupA_reverse_of_nodup _ _ hnd, hv]
    rfl
  · intro peer
    unfold buildPeerLabels
    rw [hc, lookupA_mergeLabels, lookupA_reverse_of_nodup _ _ hnd, hv]
    rfl

/-- Witness for C9 as amended, instantiating
`c9_amended_static_labels_shadow` at interface `wg1` with the static label
`interface = prod`. -/
theorem c9_amended_static_labels_shadow_witness :
    lookupA (buildLabels
      { ShowEndpoints := false, InterfaceLabels := [(("wg1"), [(("interface"), ("prod"))])] }
      ("wg1")) ("interface") = some ("prod") :=
  (c9_amended_static_labels_shadow
    { ShowEndpoints := false, InterfaceLabels := [(("wg1"), [(("interface"), ("prod"))])] }
    ("wg1") [(("interface"), ("prod"))] ("prod") (by rfl) (by decide) (by rfl)).1

/-- A concrete configuration for the C10 evaluation: endpoints shown, no
static labels. -/
def witnessCfg : CollectorConfig := { ShowEndpoints := true, InterfaceLabels := [] }

/-- Concrete parse outcomes for the C10 evaluation: interface `bad` fails
to parse, every other interface parses to a fixed one-peer interface. -/
def witnessParse : String → Except Unit Interface := fun n =>
  if n == ("bad") then Except.error ()
  else Except.ok
    { Name := n, PublicKey := ("PUB"), ListeningPort := 51820,
      Peers := [{ PublicKey := ("PK1"), DisplayName := (""), Endpoint := ("1.2.3.4:51820"),
                  AllowedIPs := [("10.0.0.0/24")], LatestHandshake := some 1700000000,
                  BytesSent := 200, BytesReceived := 100 }] }

/-- Concrete parse outcomes with a peerless surviving interface: `bad`
fails to parse, every other interface parses with no peers. -/
def witnessParsePeerless : String → Except Unit Interface := fun n =>
  if n == ("bad") then Except.error ()
  else Except.ok { Name := n, PublicKey := ("PUB"), ListeningPort := 51820, Peers := [] }

/-- Claim C10 (code bug): the discovery-failure half of the claim holds in
the code — a discovery error returns before anything is written or put on
the channel, so the cycle yields the empty snapshot, for every
configuration, clock and parse outcome (first conjunct). The
parse-failure half is what the control flow intends (`continue` skips
exactly the failing interface) but not what the program does on any cycle
whose surviving interfaces have a peer: with interfaces `bad` (parse
error, skipped) and `wg0` (one peer), the first peer-level `With` call
fails its label check — the map keyed `interface`/`peer_public_key` never
matches the declared labels `interface`/`peer` — and the resulting panic
kills the whole scrape (`none`): `wg0`'s series are not emitted at all,
contradicting "every other successfully parsed interface's series are
emitted normally" (third conjunct; the second records that `bad` really
fails to parse). Only when every surviving interface is peerless does the
omission semantics go through, as the fourth conjunct shows: `bad` is
dropped and `wg1`'s two interface-level series are emitted alone. -/
theorem c10_cycle_panics_instead_of_emitting :
    (∀ (cfg : CollectorConfig) (now : Int) (parse : String → Except Unit Interface),
      collectCycle cfg now (Except.error ()) parse = some []) ∧
    witnessParse ("bad") = Except.error () ∧
    collectCycle witnessCfg 1700000100 (Except.ok [("bad"), ("wg0")]) witnessParse = none ∧
    collectCycle witnessCfg 1700000100 (Except.ok [("bad"), ("wg1")]) witnessParsePeerless =
      some [(("wireguard_peers_total"), [(("interface"), ("wg1"))], 0),
            (("wireguard_interface_listening_port"), [(("interface"), ("wg1"))], 51820)] := by
  exact ⟨fun cfg now parse => rfl, rfl, rfl, rfl⟩
